import Mathlib

/-!
Shallow embedding of the v3rtba technical-debt analysis pipeline.

Sources embedded here:
  static_analyzer.py        (run_static_analysis, analyze_file)
  git_history_analyzer.py   (analyze_git_history)
  dependency_analyzer.py    (analyze_dependencies, the per-token target search)
  metrics_calculator.py     (compute_advanced_metrics, normalize_metric,
                             assign_test_coverage_status)
  contributor_analyzer.py   (analyze_contributor_efficiency)
  report_generator.py       (find_main_contributing_factor)

Python floats are modelled as rationals, Python dicts keyed by strings as
insertion-ordered association lists, and dict keys that may be absent as
Option-valued record fields (none = key absent, matching dict.get defaults
at each use site).  Filesystem, git-object and ast-parsing interaction is
passed in as explicit oracle data; everything downstream of those reads is
translated from the Python source.
-/

/-! ## String primitives (Python `in`, `str.count`, `os.path.basename`, lower) -/

/-- Boolean check that the first character list is an initial segment of the second. -/
def isPrefixChars : List Char → List Char → Bool
  | [], _ => true
  | _ :: _, [] => false
  | a :: as, b :: bs => a == b && isPrefixChars as bs

/-- Python substring containment on character lists: `n in h`. -/
def containsChars (n : List Char) : List Char → Bool
  | [] => isPrefixChars n []
  | c :: t => isPrefixChars n (c :: t) || containsChars n t

/-- Python substring containment: `needle in hay`. -/
def containsStr (needle hay : String) : Bool :=
  containsChars needle.data hay.data

/-- Python `hay.count(needle)` for a nonempty needle: non-overlapping
occurrences scanned left to right.  The emptiness guard only rules out the
degenerate empty needle, which never occurs in the source (the needles are
literals such as "function "). -/
def countOccurChars (n : List Char) (h : List Char) : Nat :=
  match h with
  | [] => 0
  | c :: t =>
    if isPrefixChars n (c :: t) && !n.isEmpty then
      1 + countOccurChars n (t.drop (n.length - 1))
    else
      countOccurChars n t
termination_by h.length
decreasing_by
  · simp only [List.length_cons]
    have hd : (t.drop (n.length - 1)).length ≤ t.length := by
      simp [List.length_drop]
    omega
  · simp [List.length_cons]

/-- Python `hay.count(needle)`. -/
def countOccur (needle hay : String) : Nat :=
  countOccurChars needle.data hay.data

/-- Python `s.startswith(p)`. -/
def strStartsWith (s p : String) : Bool :=
  isPrefixChars p.data s.data

/-- Python `s.endswith(suffix)`. -/
def strEndsWith (s suffix : String) : Bool :=
  isPrefixChars suffix.data.reverse s.data.reverse

/-- Python `s.lower()` (the analyzed strings are ASCII). -/
def toLowerStr (s : String) : String :=
  String.mk (s.data.map Char.toLower)

/-- Python `os.path.basename`: the part of the path after the last slash. -/
def basename (s : String) : String :=
  String.mk ((s.data.reverse.takeWhile (fun c => c != '/')).reverse)

/-! ## Python `str.splitlines`

The scanner reads files with `open(..., 'r', errors='ignore')`: universal
newlines translates a carriage return and a carriage-return-newline pair to
a single newline, so no carriage return reaches `splitlines`.  Every other
line boundary `str.splitlines` recognizes survives that read and is
modelled: newline, vertical tab, form feed, the file, group and record
separators, next line, line separator and paragraph separator. -/

/-- The line boundaries `str.splitlines` splits on, as they can occur in a
string produced by a text-mode read (carriage returns already normalized to
newlines). -/
def isLineBoundary (c : Char) : Bool :=
  c == '\n' || c == '\x0b' || c == '\x0c' || c == '\x1c' || c == '\x1d'
    || c == '\x1e' || c == '\x85' || c == '\u2028' || c == '\u2029'

/-- Accumulator pass behind `splitlines`: `cur` holds the current line reversed. -/
def splitlinesAux (cur : List Char) : List Char → List (List Char)
  | [] => [cur.reverse]
  | c :: t =>
    if isLineBoundary c then cur.reverse :: splitlinesAux [] t
    else splitlinesAux (c :: cur) t

/-- Python `s.splitlines()`: no entry for a trailing boundary, empty list
for the empty string. -/
def pySplitlines (s : String) : List (List Char) :=
  if s.data = [] then []
  else if (s.data.getLast?.map isLineBoundary).getD false = true then
    (splitlinesAux [] s.data).dropLast
  else splitlinesAux [] s.data

/-- Number of lines with at least one non-whitespace character, following the
specification wording "non-blank line count" (spec-side definition, for
comparison with the source). -/
def specNonBlankLineCount (s : String) : Nat :=
  ((pySplitlines s).filter (fun l => l.any (fun c => c != ' ' && c != '\t'))).length

/-- Independent characterisation of the total line count: the number of
line-boundary characters, plus one more when the text is nonempty and does
not end in a line boundary. -/
def specTotalLineCount (s : String) : Nat :=
  s.data.countP isLineBoundary +
    (if s.data = [] then 0
     else if (s.data.getLast?.map isLineBoundary).getD false = true then 0 else 1)

/-! ## Data model: the per-file record dict -/

/-- One entry of the `all_file_data` dict.  Every field is Option-valued:
`none` models the key being absent from the Python dict, so that the
`dict.get(key, default)` reads in the source become `Option.getD`. -/
structure FileRecord where
  loc : Option ℚ
  complexity : Option ℚ
  commit_count : Option ℚ
  lines_added : Option ℚ
  lines_removed : Option ℚ
  bug_fix_count : Option ℚ
  unique_author_count : Option ℚ
  author_commits : Option (List (String × ℚ))
  ownership_entropy : Option ℚ
  fan_in : Option ℚ
  fan_out : Option ℚ
  risk_score : Option ℚ
  missing_test_coverage_factor : Option ℚ
  systemic_risk_score : Option ℚ
deriving DecidableEq, Repr

/-- A record with no keys set. -/
def FileRecord.empty : FileRecord :=
  { loc := none, complexity := none, commit_count := none, lines_added := none
  , lines_removed := none, bug_fix_count := none, unique_author_count := none
  , author_commits := none, ownership_entropy := none, fan_in := none
  , fan_out := none, risk_score := none, missing_test_coverage_factor := none
  , systemic_risk_score := none }

/-- The shared pipeline mapping from repository-relative path to record. -/
abbrev Mapping := List (String × FileRecord)

/-! ## static_analyzer.py -/

/-- `ANALYZE_EXTENSIONS` from static_analyzer.py. -/
def ANALYZE_EXTENSIONS : List String :=
  [".py", ".js", ".ts", ".java", ".c", ".cpp", ".html", ".css"]

/-- `analyze_file` from static_analyzer.py.  The file content is an oracle:
`none` models an unreadable file (the `except` branch returning loc 0,
complexity 1).  `pyCC` is the oracle for `get_cyclomatic_complexity`, whose
body walks the Python `ast` parse tree (including its markup fallback on a
syntax error); the non-Python keyword-count branch is translated directly. -/
def analyze_file (pyCC : String → ℚ) (path : String) (content : Option String) : FileRecord :=
  match content with
  | none => { FileRecord.empty with loc := some 0, complexity := some 1 }
  | some code =>
    let loc : ℚ := ((pySplitlines code).length : ℚ)
    let complexity : ℚ :=
      if strEndsWith path ".py" then pyCC code
      else 1 + (countOccur "function " code : ℚ) + (countOccur "class " code : ℚ)
             + (countOccur "if (" code : ℚ)
    { FileRecord.empty with loc := some loc, complexity := some complexity }

/-- `run_static_analysis` from static_analyzer.py.  The input list is the
sequence of (relative path, content) pairs produced by the directory walk
(the walk itself and its .git-directory skip stay outside the model); the
extension filter and the loc > 0 insertion guard are translated from the
source. -/
def run_static_analysis (pyCC : String → ℚ) (files : List (String × Option String)) : Mapping :=
  files.foldl
    (fun acc pc =>
      if ANALYZE_EXTENSIONS.any (fun ext => strEndsWith pc.1 ext) then
        let r := analyze_file pyCC pc.1 pc.2
        if 0 < r.loc.getD 0 then acc ++ [(pc.1, r)] else acc
      else acc)
    []

/-! ## metrics_calculator.py -/

/-- `assign_test_coverage_status` from metrics_calculator.py. -/
def assign_test_coverage_status (path : String) : ℚ :=
  if containsStr "test" (toLowerStr path) || strEndsWith path "_spec.rb"
      || strEndsWith path "_test.py" then (1 : ℚ)/10
  else if (["model", "interface", "util", "core", "api", "database"]).any
      (fun keyword => containsStr keyword (toLowerStr path)) then 1
  else (1 : ℚ)/2

/-- `normalize_metric` from metrics_calculator.py (the identical helper also
appears in report_generator.py and report_exporter.py).  In the source
`min_value` is a default argument equal to 0; every call site uses that
default, and the model passes it explicitly. -/
def normalize_metric (value : ℚ) (max_value : ℚ) (min_value : ℚ) : ℚ :=
  if max_value = min_value ∨ max_value = 0 then 0
  else min 1 ((max min_value value - min_value) / (max_value - min_value))

/-- The `max_values` dict built by the first pass of
`compute_advanced_metrics`; all keys are always set together. -/
structure MaxValues where
  complexity : ℚ
  total_churn : ℚ
  ownership_entropy : ℚ
  bug_fix_freq : ℚ
  dependency_score : ℚ
  systemic_risk_score : ℚ
deriving DecidableEq, Repr

/-- The `_repo_stats` dict: the two keys `compute_advanced_metrics` writes. -/
structure RepoStats where
  max_values : Option MaxValues
  overall_technical_debt : Option ℚ
deriving DecidableEq, Repr

/-- Python `max(candidates or [fallback])`. -/
def maxOrD (fallback : ℚ) : List ℚ → ℚ
  | [] => fallback
  | h :: t => t.foldl max h

/-- The `bug_fix_freq` candidate of the first pass:
`d.get('bug_fix_count', 0) / (d.get('commit_count', 1) or 1)`. -/
def bugFixFreqCandidate (d : FileRecord) : ℚ :=
  d.bug_fix_count.getD 0 /
    (if d.commit_count.getD 1 = 0 then 1 else d.commit_count.getD 1)

/-- The membership test for `file_entries`: paths not starting with an
underscore whose record has `loc > 0`. -/
def condB (pd : String × FileRecord) : Bool :=
  !strStartsWith pd.1 "_" && decide (0 < pd.2.loc.getD 0)

/-- First pass of `compute_advanced_metrics`: the maxima used as
normalization denominators (`systemic_risk_score` starts at 0 and is updated
during the second pass). -/
def rawMaxValues (fe : List (String × FileRecord)) : MaxValues :=
  { complexity := maxOrD 1 (fe.map (fun pd => pd.2.complexity.getD 0))
  , total_churn := maxOrD 1 (fe.map (fun pd => pd.2.lines_added.getD 0 + pd.2.lines_removed.getD 0))
  , ownership_entropy := 1
  , bug_fix_freq := maxOrD ((1 : ℚ)/10) (fe.map (fun pd => bugFixFreqCandidate pd.2))
  , dependency_score := maxOrD 1 (fe.map (fun pd => pd.2.fan_in.getD 0 * 2 + pd.2.fan_out.getD 0 * 1))
  , systemic_risk_score := 0 }

/-- The weighted risk score of the second pass of `compute_advanced_metrics`
(0-100 scale): the five normalized metrics combined with the fixed WEIGHTS. -/
def riskScoreVal (mv : MaxValues) (d : FileRecord) : ℚ :=
  let norm_complexity := normalize_metric (d.complexity.getD 0) mv.complexity 0
  let norm_churn := normalize_metric (d.lines_added.getD 0 + d.lines_removed.getD 0) mv.total_churn 0
  let norm_entropy := normalize_metric (d.ownership_entropy.getD 0) mv.ownership_entropy 0
  let total_commits := d.commit_count.getD 0
  let bug_fix_freq := d.bug_fix_count.getD 0 / (if total_commits = 0 then 1 else total_commits)
  let norm_bug_freq := normalize_metric bug_fix_freq mv.bug_fix_freq 0
  let dependency_score := d.fan_in.getD 0 * 2 + d.fan_out.getD 0 * 1
  let norm_dependency := normalize_metric dependency_score mv.dependency_score 0
  (norm_complexity * (30/100) + norm_churn * (20/100) + norm_entropy * (15/100)
    + norm_bug_freq * (25/100) + norm_dependency * (10/100)) * 100

/-- `systemic_risk_score = fan_in * risk_score * missing_test_coverage_factor`. -/
def systemicVal (mv : MaxValues) (path : String) (d : FileRecord) : ℚ :=
  d.fan_in.getD 0 * riskScoreVal mv d * assign_test_coverage_status path

/-- The per-record update of the second pass: the three keys written into the
record dict. -/
def scoreRecord (mv : MaxValues) (path : String) (d : FileRecord) : FileRecord :=
  { d with risk_score := some (riskScoreVal mv d)
         , missing_test_coverage_factor := some (assign_test_coverage_status path)
         , systemic_risk_score := some (systemicVal mv path d) }

/-- The effect of the second pass on one mapping entry: entries outside
`file_entries` are left untouched. -/
def updEntry (mv : MaxValues) (pd : String × FileRecord) : String × FileRecord :=
  if condB pd then (pd.1, scoreRecord mv pd.1 pd.2) else pd

/-- `compute_advanced_metrics` from metrics_calculator.py.  The `_repo_stats`
entry of the Python dict is carried as the separate second component; the
underscore filter on file entries is kept from the source.  The running
maximum of the systemic score and the list of risk scores for the mean are
folds over `file_entries` exactly as in the second-pass loop. -/
def compute_advanced_metrics (x : Mapping × RepoStats) : Mapping × RepoStats :=
  let entries := x.1
  let file_entries := entries.filter condB
  let mv := rawMaxValues file_entries
  let out := entries.map (updEntry mv)
  let weighted_scores := file_entries.map (fun pd => riskScoreVal mv pd.2)
  let sysMax := file_entries.foldl (fun acc pd => max acc (systemicVal mv pd.1 pd.2)) 0
  let overall := if weighted_scores.isEmpty then 0
    else weighted_scores.sum / (weighted_scores.length : ℚ)
  (out, { max_values := some { mv with systemic_risk_score := sysMax }
        , overall_technical_debt := some overall })

/-! ## git_history_analyzer.py -/

/-- One commit touching a path, as seen by the history walk.  The message and
author come from the commit object; `diff_added_removed` is the oracle for
the numstat diff block guarded by `commit.parents` (it is `none` when the
commit has no parent, when no qualifying same-path modification diff exists,
or when the inner `try` swallows a diff-stat failure, all of which
contribute zero lines). -/
structure Commit where
  author_email : String
  message : String
  diff_added_removed : Option (ℚ × ℚ)
deriving DecidableEq, Repr

/-- `BUG_KEYWORDS` from git_history_analyzer.py. -/
def BUG_KEYWORDS : List String :=
  ["fix", "bug", "error", "broken", "issue", "hotfix"]

/-- `unique_authors[email] = unique_authors.get(email, 0) + 1` on an
insertion-ordered dict. -/
def bumpAuthor : List (String × ℚ) → String → List (String × ℚ)
  | [], e => [(e, 1)]
  | (k, v) :: t, e => if k = e then (k, v + 1) :: t else (k, v) :: bumpAuthor t e

/-- The running totals of the per-file history loop. -/
structure HistoryAcc where
  commit_count : ℚ
  authors : List (String × ℚ)
  bug_fix_count : ℚ
  lines_added : ℚ
  lines_removed : ℚ
deriving DecidableEq, Repr

/-- The loop body of the per-file history walk in `analyze_git_history`. -/
def historyStep (acc : HistoryAcc) (c : Commit) : HistoryAcc :=
  { commit_count := acc.commit_count + 1
  , authors := bumpAuthor acc.authors c.author_email
  , bug_fix_count := acc.bug_fix_count +
      (if BUG_KEYWORDS.any (fun keyword => containsStr keyword (toLowerStr c.message)) then 1 else 0)
  , lines_added := acc.lines_added + ((c.diff_added_removed.map Prod.fst).getD 0)
  , lines_removed := acc.lines_removed + ((c.diff_added_removed.map Prod.snd).getD 0) }

/-- The whole per-file history walk, starting from all-zero totals. -/
def walkHistory (commits : List Commit) : HistoryAcc :=
  commits.foldl historyStep
    { commit_count := 0, authors := [], bug_fix_count := 0
    , lines_added := 0, lines_removed := 0 }

/-- `analyze_git_history` from git_history_analyzer.py.  `repoHist` is the
git oracle: `none` models `git.Repo` raising InvalidGitRepositoryError (the
function prints a warning and returns the mapping as is); `some hist` gives,
per path, either the commits `iter_commits` yields for it or the
GitCommandError that makes the `except` branch zero-fill the record. -/
def analyze_git_history (repoHist : Option (String → Except String (List Commit)))
    (m : Mapping) : Mapping :=
  match repoHist with
  | none => m
  | some hist =>
    m.map (fun pd =>
      match hist pd.1 with
      | Except.ok commits =>
        let h := walkHistory commits
        (pd.1, { pd.2 with commit_count := some h.commit_count
                         , lines_added := some h.lines_added
                         , lines_removed := some h.lines_removed
                         , unique_author_count := some (h.authors.length : ℚ)
                         , bug_fix_count := some h.bug_fix_count
                         , author_commits := some h.authors })
      | Except.error _ =>
        (pd.1, { pd.2 with commit_count := some 0
                         , lines_added := some 0
                         , lines_removed := some 0
                         , unique_author_count := some 0
                         , bug_fix_count := some 0
                         , author_commits := some [] }))

/-- Sum of the values of an author-commit dict. -/
def sumVals (l : List (String × ℚ)) : ℚ :=
  (l.map Prod.snd).sum

/-! ## dependency_analyzer.py -/

/-- The inner target-search loop of `analyze_dependencies` for one extracted
token `dep` of source file `src`: scan the known paths in order; on the
first path matching `dep in target_path or os.path.basename(dep) in
target_path` that is not the source itself, record it and stop; a matching
path equal to the source is skipped without stopping. -/
def depLoop (paths : List String) (src dep : String) : List String :=
  match paths with
  | [] => []
  | t :: rest =>
    if containsStr dep t || containsStr (basename dep) t then
      if t ≠ src then [t] else depLoop rest src dep
    else depLoop rest src dep

/-- The target search as the claim words it: the first known path that
contains the token as a substring or whose filename-only component equals
the filename-only component of the token (spec-side definition, for
comparison with `depLoop`). -/
def specFindDepTarget (paths : List String) (src dep : String) : Option String :=
  paths.find? (fun t => (containsStr dep t || basename t == basename dep) && t != src)

/-- The amended wording of the search: the first known path that contains the
token, or the filename-only component of the token, as a substring
(spec-side definition, for comparison with `depLoop`). -/
def specFindDepTargetAmended (paths : List String) (src dep : String) : Option String :=
  paths.find? (fun t => (containsStr dep t || containsStr (basename dep) t) && t != src)

/-- The deduplicated outgoing-target list of one source file, given its
extracted token set. -/
def depTargets (paths : List String) (src : String) (deps : List String) : List String :=
  (deps.flatMap (fun dep => depLoop paths src dep)).dedup

/-- `analyze_dependencies` from dependency_analyzer.py.  `tokensOf` is the
oracle for the per-file regex extraction: `none` models a path whose
extension has no registered pattern or whose content cannot be read (the
`continue` branches, which leave `fan_out` unset), `some deps` the distinct
match strings.  `fan_out` is the number of distinct recorded targets;
`fan_in` counts, for every path, the sources whose target set has it. -/
def analyze_dependencies (tokensOf : String → Option (List String)) (m : Mapping) : Mapping :=
  let paths := m.map Prod.fst
  let fanOutTargets : List (String × List String) :=
    m.map (fun pd => (pd.1, match tokensOf pd.1 with
      | none => []
      | some deps => depTargets paths pd.1 deps))
  let m1 := m.map (fun pd =>
    match tokensOf pd.1 with
    | none => pd
    | some deps => (pd.1, { pd.2 with fan_out := some ((depTargets paths pd.1 deps).length : ℚ) }))
  m1.map (fun pd =>
    (pd.1,
     { pd.2 with
       fan_in := some (((fanOutTargets.filter (fun st => decide (pd.1 ∈ st.2))).length : ℚ)) }))

/-! ## contributor_analyzer.py -/

/-- The defaultdict value of `analyze_contributor_efficiency` before the
final-score pass. -/
structure ContribAcc where
  total_commits : ℚ
  lines_added : ℚ
  lines_removed : ℚ
  bug_fix_count : ℚ
  risk_contribution_sum : ℚ
  total_author_contrib_percentage : ℚ
deriving DecidableEq, Repr

/-- The all-zero defaultdict initial value. -/
def ContribAcc.zero : ContribAcc :=
  { total_commits := 0, lines_added := 0, lines_removed := 0
  , bug_fix_count := 0, risk_contribution_sum := 0
  , total_author_contrib_percentage := 0 }

/-- A finished contributor record: the accumulated totals plus the two
scores added by the second pass. -/
structure ContribFinal where
  total_commits : ℚ
  lines_added : ℚ
  lines_removed : ℚ
  bug_fix_count : ℚ
  risk_contribution_sum : ℚ
  total_author_contrib_percentage : ℚ
  efficiency_score : ℚ
  risk_score : ℚ
deriving DecidableEq, Repr

/-- Update one author entry of the insertion-ordered defaultdict, creating
the all-zero entry on first access. -/
def updateAuthor (m : List (String × ContribAcc)) (email : String)
    (f : ContribAcc → ContribAcc) : List (String × ContribAcc) :=
  match m with
  | [] => [(email, f ContribAcc.zero)]
  | (k, v) :: t => if k = email then (k, f v) :: t else (k, v) :: updateAuthor t email f

/-- The per-file body of the aggregation loop in
`analyze_contributor_efficiency`: skip `_repo_stats`, records with zero loc,
records without a risk score, and records with zero commits; otherwise fold
the author loop over `author_commits`. -/
def processFile (acc : List (String × ContribAcc)) (path : String) (d : FileRecord) :
    List (String × ContribAcc) :=
  if path = "_repo_stats" ∨ d.loc.getD 0 = 0 ∨ d.risk_score = none then acc
  else
    let file_risk_score := d.risk_score.getD 0
    let file_total_commits := d.commit_count.getD 0
    if file_total_commits = 0 then acc
    else
      (d.author_commits.getD []).foldl
        (fun a ac =>
          let author_commits_percentage := ac.2 / file_total_commits
          updateAuthor a ac.1 (fun s =>
            { total_commits := s.total_commits + ac.2
            , lines_added := s.lines_added + d.lines_added.getD 0 * author_commits_percentage
            , lines_removed := s.lines_removed + d.lines_removed.getD 0 * author_commits_percentage
            , bug_fix_count := s.bug_fix_count + d.bug_fix_count.getD 0 * author_commits_percentage
            , risk_contribution_sum := s.risk_contribution_sum + file_risk_score * author_commits_percentage
            , total_author_contrib_percentage := s.total_author_contrib_percentage + author_commits_percentage }))
        acc

/-- The second pass of `analyze_contributor_efficiency`: the efficiency and
risk scores of one author, with the `BUG_PENALTY_FACTOR = 10` weight and the
positive-denominator guards. -/
def finalizeContrib (s : ContribAcc) : ContribFinal :=
  let efficiency_denominator := s.total_commits + s.lines_removed + s.bug_fix_count * 10
  let efficiency := if 0 < efficiency_denominator then s.lines_added / efficiency_denominator else 0
  let risk_score := if 0 < s.total_author_contrib_percentage then
      s.risk_contribution_sum / s.total_author_contrib_percentage
    else 0
  { total_commits := s.total_commits, lines_added := s.lines_added
  , lines_removed := s.lines_removed, bug_fix_count := s.bug_fix_count
  , risk_contribution_sum := s.risk_contribution_sum
  , total_author_contrib_percentage := s.total_author_contrib_percentage
  , efficiency_score := efficiency, risk_score := risk_score }

/-- `analyze_contributor_efficiency` from contributor_analyzer.py. -/
def analyze_contributor_efficiency (m : Mapping) : List (String × ContribFinal) :=
  (m.foldl (fun acc pd => processFile acc pd.1 pd.2) []).map
    (fun kv => (kv.1, finalizeContrib kv.2))

/-! ## report_generator.py -/

/-- The result of `find_main_contributing_factor`.  The source returns a
string; the model keeps the winning factor name and the exact percentage
share that the f-string renders to one decimal place, and a separate
constructor for the fixed "Low Risk / High Stability" label. -/
inductive MainFactor where
  | lowRisk : MainFactor
  | factor : String → ℚ → MainFactor
deriving DecidableEq, Repr

/-- The five weighted normalized contributions of
`find_main_contributing_factor`, in the fixed insertion order of the
`contributions` dict literal.  Note the `data.get('complexity', 1)` default,
which differs from the 0 default used in `compute_advanced_metrics`. -/
def fmcfContributions (d : FileRecord) (mv : MaxValues) : List (String × ℚ) :=
  let norm_complexity := normalize_metric (d.complexity.getD 1) mv.complexity 0
  let norm_churn := normalize_metric (d.lines_added.getD 0 + d.lines_removed.getD 0) mv.total_churn 0
  let norm_entropy := normalize_metric (d.ownership_entropy.getD 0) mv.ownership_entropy 0
  let total_commits := d.commit_count.getD 0
  let bug_fix_freq := d.bug_fix_count.getD 0 / (if total_commits = 0 then 1 else total_commits)
  let norm_bug_freq := normalize_metric bug_fix_freq mv.bug_fix_freq 0
  let dependency_score := d.fan_in.getD 0 * 2 + d.fan_out.getD 0 * 1
  let norm_dependency := normalize_metric dependency_score mv.dependency_score 0
  [ ("Complexity", norm_complexity * (30/100))
  , ("Churn", norm_churn * (20/100))
  , ("Entropy", norm_entropy * (15/100))
  , ("Bugs", norm_bug_freq * (25/100))
  , ("Dependency", norm_dependency * (10/100)) ]

/-- Python `max(items, key=itemgetter(1))` on a nonempty list: the first
element with the maximal value (a later element replaces the running best
only when strictly greater). -/
def maxByValueFirst (l : List (String × ℚ)) (dflt : String × ℚ) : String × ℚ :=
  match l with
  | [] => dflt
  | h :: t => t.foldl (fun b x => if x.2 > b.2 then x else b) h

/-- The total of the five contributions. -/
def fmcfTotal (d : FileRecord) (mv : MaxValues) : ℚ :=
  ((fmcfContributions d mv).map Prod.snd).sum

/-- `find_main_contributing_factor` from report_generator.py. -/
def find_main_contributing_factor (d : FileRecord) (mv : MaxValues) : MainFactor :=
  let contributions := fmcfContributions d mv
  let main_factor := maxByValueFirst contributions ("Complexity", 0)
  let total_contribution := (contributions.map Prod.snd).sum
  if total_contribution < (1 : ℚ)/100 then MainFactor.lowRisk
  else MainFactor.factor main_factor.1 (main_factor.2 * 100 / total_contribution)

/-! ## Concrete inputs used by counterexamples and witnesses -/

/-- The single file record of the §8 scenario: loc 50, complexity 5, two
commits both by a@x, 20 lines added, 5 removed, no bug fixes, no fan-in or
fan-out. -/
def scenarioRec : FileRecord :=
  { FileRecord.empty with
      loc := some 50
      complexity := some 5
      commit_count := some 2
      author_commits := some [("a@x", 2)]
      lines_added := some 20
      lines_removed := some 5
      bug_fix_count := some 0
      fan_in := some 0
      fan_out := some 0 }

/-- The maxima the first pass produces on the scenario mapping. -/
def scenarioMax : MaxValues :=
  { complexity := 5, total_churn := 25, ownership_entropy := 1, bug_fix_freq := 0
  , dependency_score := 0, systemic_risk_score := 0 }

/-- A record as the scanner leaves it: only loc and complexity set. -/
def scannedRec : FileRecord :=
  { FileRecord.empty with loc := some 1, complexity := some 1 }

/-- An empty `_repo_stats` dict. -/
def emptyStats : RepoStats :=
  { max_values := none, overall_technical_debt := none }

/-- An underscore-keyed bookkeeping entry with positive loc and no risk
score. -/
def underscoreRec : FileRecord :=
  { FileRecord.empty with loc := some 3 }

/-- Two commits touching one file: a bug fix by a@x and an ordinary commit
by b@y. -/
def witnessCommits : List Commit :=
  [ { author_email := "a@x", message := "Fix crash on load", diff_added_removed := some (3, 1) }
  , { author_email := "b@y", message := "add feature", diff_added_removed := none } ]

/-- A history oracle returning `witnessCommits` for every path. -/
def witnessHist : String → Except String (List Commit) :=
  fun _ => Except.ok witnessCommits

/-- The record the HistoryMiner produces from `scannedRec` and
`witnessCommits`. -/
def historyRec : FileRecord :=
  { scannedRec with
      commit_count := some 2
      lines_added := some 3
      lines_removed := some 1
      unique_author_count := some 2
      bug_fix_count := some 1
      author_commits := some [("a@x", 1), ("b@y", 1)] }

/-- All raw metric reads of a record are nonnegative, as every record
produced by the upstream pipeline stages satisfies (counts of lines,
commits, bug fixes and graph degrees). -/
def RawNonneg (d : FileRecord) : Prop :=
  0 ≤ d.complexity.getD 0 ∧ 0 ≤ d.lines_added.getD 0 ∧ 0 ≤ d.lines_removed.getD 0
    ∧ 0 ≤ d.bug_fix_count.getD 0 ∧ 0 ≤ d.commit_count.getD 0
    ∧ 0 ≤ d.fan_in.getD 0 ∧ 0 ≤ d.fan_out.getD 0 ∧ 0 ≤ d.ownership_entropy.getD 0

/-- The weighted complexity contribution of `find_main_contributing_factor`. -/
def contribComplexity (d : FileRecord) (mv : MaxValues) : ℚ :=
  normalize_metric (d.complexity.getD 1) mv.complexity 0 * (30/100)

/-- The weighted churn contribution. -/
def contribChurn (d : FileRecord) (mv : MaxValues) : ℚ :=
  normalize_metric (d.lines_added.getD 0 + d.lines_removed.getD 0) mv.total_churn 0 * (20/100)

/-- The weighted ownership-entropy contribution. -/
def contribEntropy (d : FileRecord) (mv : MaxValues) : ℚ :=
  normalize_metric (d.ownership_entropy.getD 0) mv.ownership_entropy 0 * (15/100)

/-- The weighted bug-fix-frequency contribution. -/
def contribBugs (d : FileRecord) (mv : MaxValues) : ℚ :=
  normalize_metric
    (d.bug_fix_count.getD 0 / (if d.commit_count.getD 0 = 0 then 1 else d.commit_count.getD 0))
    mv.bug_fix_freq 0 * (25/100)

/-- The weighted dependency contribution. -/
def contribDependency (d : FileRecord) (mv : MaxValues) : ℚ :=
  normalize_metric (d.fan_in.getD 0 * 2 + d.fan_out.getD 0 * 1) mv.dependency_score 0 * (10/100)

/-- The scenario record after the MetricsEngine: risk 50, coverage factor
one half, systemic score 0. -/
def scenarioScored : FileRecord :=
  { scenarioRec with
      risk_score := some 50
      missing_test_coverage_factor := some (1/2)
      systemic_risk_score := some 0 }

/-- The contributor record of a@x on the scored scenario mapping. -/
def scenarioContrib : ContribFinal :=
  { total_commits := 2, lines_added := 20, lines_removed := 5, bug_fix_count := 0
  , risk_contribution_sum := 50, total_author_contrib_percentage := 1
  , efficiency_score := 20/7, risk_score := 50 }

/-! # Theorems -/

/-! ## Shared helper lemmas -/

theorem splitlinesAux_length (cs : List Char) :
    ∀ cur, (splitlinesAux cur cs).length = cs.countP isLineBoundary + 1 := by
  induction cs with
  | nil => intro cur; rfl
  | cons c t ih =>
    intro cur
    by_cases hc : isLineBoundary c = true
    · simp [splitlinesAux, hc, ih, List.countP_cons]
    · simp [splitlinesAux, hc, ih, List.countP_cons]

theorem pySplitlines_length (s : String) :
    (pySplitlines s).length = specTotalLineCount s := by
  unfold pySplitlines specTotalLineCount
  by_cases h0 : s.data = []
  · simp [h0]
  · by_cases hl : (s.data.getLast?.map isLineBoundary).getD false = true
    · simp [h0, hl, List.length_dropLast, splitlinesAux_length]
    · simp [h0, hl, splitlinesAux_length]

theorem depLoop_eq_find (paths : List String) (src dep : String) :
    depLoop paths src dep = (specFindDepTargetAmended paths src dep).toList := by
  induction paths with
  | nil => rfl
  | cons t rest ih =>
    by_cases hm : (containsStr dep t || containsStr (basename dep) t) = true
    · by_cases hs : t = src
      · subst hs
        simp [depLoop, specFindDepTargetAmended, List.find?, hm, ih,
          specFindDepTargetAmended]
      · simp [depLoop, specFindDepTargetAmended, List.find?, hm, hs, bne_iff_ne.mpr hs]
    · simp [depLoop, specFindDepTargetAmended, List.find?, hm, ih,
        specFindDepTargetAmended]

/-! ## C2 -/

/-- C2: counterexample.  On an invalid checkout the HistoryMiner returns the
mapping unchanged: the surviving record still has none of the history keys
(commit_count and the rest stay absent), refuting "after it returns, every
record contains these history keys". -/
theorem c2_invalid_repo_counterexample :
    analyze_git_history none [("a.py", scannedRec)] = [("a.py", scannedRec)]
      ∧ scannedRec.commit_count = none
      ∧ scannedRec.lines_added = none
      ∧ scannedRec.lines_removed = none
      ∧ scannedRec.bug_fix_count = none
      ∧ scannedRec.unique_author_count = none
      ∧ scannedRec.author_commits = none := by
  refine ⟨rfl, rfl, rfl, rfl, rfl, rfl, rfl⟩

/-- C2 (amended): if the root is not a valid version-controlled checkout,
the HistoryMiner surfaces a warning and returns the mapping unchanged,
without raising a fatal error; the history keys are not added to any record
(downstream stages read them with zero defaults). -/
theorem c2_invalid_repo_amended (m : Mapping) :
    analyze_git_history none m = m := rfl

/-! ## C3 -/

/-- C3: counterexample.  The scanner stores loc 3 for the content with the
lines "a", "", "b", while its non-blank line count is 2: blank lines are
counted. -/
theorem c3_loc_counterexample :
    ((run_static_analysis (fun _ => 1) [("a.c", some "a\n\nb")]).lookup "a.c").map
        FileRecord.loc = some (some 3)
      ∧ specNonBlankLineCount "a\n\nb" = 2
      ∧ (3 : ℚ) ≠ ((2 : ℕ) : ℚ) := by
  refine ⟨?_, by decide, by norm_num⟩
  have h1 : (pySplitlines "a\n\nb").length = 3 := by decide
  have h2 : ANALYZE_EXTENSIONS.any (fun ext => strEndsWith "a.c" ext) = true := by decide
  simp [run_static_analysis, analyze_file, h1, h2, List.lookup, FileRecord.empty]

/-- C3 (amended): the stored loc equals the total line count of the content,
blank lines included: the number of line-boundary characters (newline,
vertical tab, form feed, the file, group and record separators, next line,
line separator, paragraph separator), plus one when the content is nonempty
and does not end in such a boundary; in particular a form feed also starts a
new counted line, as in "a", form feed, "b" getting loc 2. -/
theorem c3_loc_amended :
    (∀ (pyCC : String → ℚ) (path code : String),
        (analyze_file pyCC path (some code)).loc = some ((specTotalLineCount code : ℕ) : ℚ))
      ∧ (∀ pyCC : String → ℚ,
          (analyze_file pyCC "a.c" (some "a\x0cb")).loc = some 2) := by
  constructor
  · intro pyCC path code
    simp only [analyze_file]
    rw [← pySplitlines_length]
  · intro pyCC
    simp only [analyze_file]
    rw [show (pySplitlines "a\x0cb").length = 2 from by decide]
    norm_num

/-! ## C6 -/

/-- C6: counterexample.  For the token "dir/util" issued by "a.py", the code
records the edge to "myutil.py" because the filename-only component "util"
is a substring of the path, while the claimed rule (filename-only components
must be equal: "myutil.py" vs "util") finds no target at all. -/
theorem c6_dependency_match_counterexample :
    depLoop ["a.py", "myutil.py"] "a.py" "dir/util" = ["myutil.py"]
      ∧ specFindDepTarget ["a.py", "myutil.py"] "a.py" "dir/util" = none
      ∧ ((analyze_dependencies
            (fun p => if p = "a.py" then some ["dir/util"] else none)
            [("a.py", scannedRec), ("myutil.py", scannedRec)]).lookup "a.py").map
          FileRecord.fan_out = some (some 1) := by
  refine ⟨by decide, by decide, ?_⟩
  have h : depTargets ["a.py", "myutil.py"] "a.py" ["dir/util"] = ["myutil.py"] := by decide
  simp [analyze_dependencies, h, List.lookup, scannedRec, FileRecord.empty]

/-- C6 (amended): the per-token search records an edge to the first known
path that contains the token, or the filename-only component of the token,
as a substring, skipping the source itself and stopping at the first such
target; fan-out counts the distinct targets reached this way. -/
theorem c6_dependency_match_amended (paths : List String) (src dep : String)
    (deps : List String) :
    depLoop paths src dep = (specFindDepTargetAmended paths src dep).toList
      ∧ depTargets paths src deps =
        (deps.flatMap (fun d => (specFindDepTargetAmended paths src d).toList)).dedup := by
  constructor
  · exact depLoop_eq_find paths src dep
  · unfold depTargets
    congr 1
    exact List.flatMap_congr (fun d _ => depLoop_eq_find paths src d)

/-! ## C5 and C10 helper: entries failing the file-entry test pass through -/

theorem compute_cons_skip (p : String) (d : FileRecord) (rest : Mapping) (st : RepoStats)
    (h : condB (p, d) = false) :
    compute_advanced_metrics ((p, d) :: rest, st)
      = ((p, d) :: (compute_advanced_metrics (rest, st)).1,
         (compute_advanced_metrics (rest, st)).2) := by
  simp only [compute_advanced_metrics, List.filter_cons, h, Bool.false_eq_true, if_false,
    List.map_cons, updEntry]

theorem run_static_analysis_aux (pyCC : String → ℚ) (files : List (String × Option String)) :
    ∀ (acc : Mapping), (∀ pd ∈ acc, 0 < pd.2.loc.getD 0) →
      ∀ pd ∈ files.foldl
        (fun acc pc =>
          if ANALYZE_EXTENSIONS.any (fun ext => strEndsWith pc.1 ext) then
            let r := analyze_file pyCC pc.1 pc.2
            if 0 < r.loc.getD 0 then acc ++ [(pc.1, r)] else acc
          else acc) acc,
        0 < pd.2.loc.getD 0 := by
  induction files with
  | nil => intro acc hacc pd hpd; exact hacc pd hpd
  | cons f fs ih =>
    intro acc hacc pd hpd
    rw [List.foldl_cons] at hpd
    by_cases he : ANALYZE_EXTENSIONS.any (fun ext => strEndsWith f.1 ext) = true
    · simp only [he, if_true] at hpd
      by_cases hl : 0 < (analyze_file pyCC f.1 f.2).loc.getD 0
      · simp only [hl, if_true] at hpd
        refine ih (acc ++ [(f.1, analyze_file pyCC f.1 f.2)]) ?_ pd hpd
        intro q hq
        rcases List.mem_append.mp hq with hq | hq
        · exact hacc q hq
        · rcases List.mem_singleton.mp hq with rfl
          exact hl
      · simp only [hl, if_false] at hpd
        exact ih acc hacc pd hpd
    · simp only [he, if_false] at hpd
      exact ih acc hacc pd hpd

/-! ## C5 -/

/-- C5: every record the StaticAnalysisScanner outputs has loc > 0 (a file
whose analysis yields loc 0, including any unreadable file, is never
inserted), and a mapping entry whose loc reads as 0 passes through the
MetricsEngine untouched and contributes nothing to the maxima, the mean, or
any other repository statistic. -/
theorem c5_loc_positive :
    (∀ (pyCC : String → ℚ) (files : List (String × Option String)),
        ∀ pd ∈ run_static_analysis pyCC files, 0 < pd.2.loc.getD 0)
      ∧ (∀ (p : String) (d : FileRecord) (rest : Mapping) (st : RepoStats),
          d.loc.getD 0 = 0 →
            compute_advanced_metrics ((p, d) :: rest, st)
              = ((p, d) :: (compute_advanced_metrics (rest, st)).1,
                 (compute_advanced_metrics (rest, st)).2)) := by
  constructor
  · intro pyCC files pd hpd
    exact run_static_analysis_aux pyCC files [] (by intro q hq; cases hq) pd hpd
  · intro p d rest st h
    refine compute_cons_skip p d rest st ?_
    simp [condB, h]

/-- C5: witness.  A readable one-line file yields a stored record with
positive loc, and a record with absent loc passes through the MetricsEngine
unchanged. -/
theorem c5_loc_positive_witness :
    (0 < (("a.py", scannedRec) : String × FileRecord).2.loc.getD 0)
      ∧ compute_advanced_metrics (("a.py", FileRecord.empty) :: [], emptyStats)
          = (("a.py", FileRecord.empty) :: (compute_advanced_metrics ([], emptyStats)).1,
             (compute_advanced_metrics ([], emptyStats)).2) := by
  constructor
  · have h : run_static_analysis (fun _ => 1) [("a.py", some "x")] = [("a.py", scannedRec)] := by
      have h1 : (pySplitlines "x").length = 1 := by decide
      have h2 : (ANALYZE_EXTENSIONS.any (fun ext => strEndsWith "a.py" ext)) = true := by decide
      have h3 : strEndsWith "a.py" ".py" = true := by decide
      dsimp only [run_static_analysis, List.foldl_cons, List.foldl_nil, analyze_file]
      simp only [h1, h2, h3, if_true]
      norm_num [scannedRec, FileRecord.empty]
    exact c5_loc_positive.1 (fun _ => 1) [("a.py", some "x")] ("a.py", scannedRec)
      (h ▸ List.mem_singleton.mpr rfl)
  · exact c5_loc_positive.2 "a.py" FileRecord.empty [] emptyStats rfl

/-! ## C10 -/

/-- C10: an entry whose path starts with an underscore is excluded from
scoring even when loc > 0: the MetricsEngine passes it through unchanged
(no risk or systemic score is ever written into it), the repository
statistics (maxima and overall debt) are those of the remaining entries,
and, because the record then has no risk score, the
ContributorAttributionEngine skips it entirely, so its authors receive no
attribution from it. -/
theorem c10_underscore_excluded (p : String) (d : FileRecord) (rest : Mapping)
    (st : RepoStats) (hp : strStartsWith p "_" = true) (hr : d.risk_score = none)
    (_hl : 0 < d.loc.getD 0) :
    compute_advanced_metrics ((p, d) :: rest, st)
        = ((p, d) :: (compute_advanced_metrics (rest, st)).1,
           (compute_advanced_metrics (rest, st)).2)
      ∧ ∀ (l : Mapping), analyze_contributor_efficiency ((p, d) :: l)
          = analyze_contributor_efficiency l := by
  constructor
  · refine compute_cons_skip p d rest st ?_
    simp [condB, hp]
  · intro l
    simp [analyze_contributor_efficiency, List.foldl_cons, processFile, hr]

/-- C10: witness at the concrete entry "_helper.py" with loc 3. -/
theorem c10_underscore_excluded_witness :
    compute_advanced_metrics (("_helper.py", underscoreRec) :: [], emptyStats)
        = (("_helper.py", underscoreRec) :: (compute_advanced_metrics ([], emptyStats)).1,
           (compute_advanced_metrics ([], emptyStats)).2)
      ∧ analyze_contributor_efficiency [("_helper.py", underscoreRec)]
          = analyze_contributor_efficiency [] := by
  have h := c10_underscore_excluded "_helper.py" underscoreRec [] emptyStats
    (by decide) rfl (by norm_num [underscoreRec, FileRecord.empty])
  exact ⟨h.1, h.2 []⟩

/-! ## C8 -/

theorem bumpAuthor_sum (m : List (String × ℚ)) (e : String) :
    sumVals (bumpAuthor m e) = sumVals m + 1 := by
  induction m with
  | nil => simp [bumpAuthor, sumVals]
  | cons kv t ih =>
    by_cases hk : kv.1 = e
    · simp [bumpAuthor, hk, sumVals]
      ring
    · simp only [bumpAuthor, hk, if_false]
      simp only [sumVals, List.map_cons, List.sum_cons] at *
      linarith [ih]

theorem bumpAuthor_keys (m : List (String × ℚ)) (e : String) :
    (bumpAuthor m e).map Prod.fst
      = if e ∈ m.map Prod.fst then m.map Prod.fst else m.map Prod.fst ++ [e] := by
  induction m with
  | nil => simp [bumpAuthor]
  | cons kv t ih =>
    by_cases hk : kv.1 = e
    · simp [bumpAuthor, hk]
    · have hne : e ≠ kv.1 := fun h => hk h.symm
      simp only [bumpAuthor, hk, if_false, List.map_cons, List.mem_cons, hne,
        false_or, ih]
      by_cases he : e ∈ t.map Prod.fst <;> simp [he]

theorem bumpAuthor_nodup (m : List (String × ℚ)) (e : String)
    (h : (m.map Prod.fst).Nodup) : ((bumpAuthor m e).map Prod.fst).Nodup := by
  rw [bumpAuthor_keys]
  by_cases he : e ∈ m.map Prod.fst
  · simpa [he] using h
  · simp only [he, if_false]
    refine List.nodup_append.mpr ⟨h, List.nodup_singleton e, ?_⟩
    intro a ha hb
    rcases List.mem_singleton.mp hb with rfl
    exact he ha

theorem walkHistory_invariant (commits : List Commit) :
    sumVals (walkHistory commits).authors = (walkHistory commits).commit_count
      ∧ (((walkHistory commits).authors).map Prod.fst).Nodup := by
  unfold walkHistory
  suffices h : ∀ acc : HistoryAcc, sumVals acc.authors = acc.commit_count →
      (acc.authors.map Prod.fst).Nodup →
      sumVals ((commits.foldl historyStep acc).authors)
          = (commits.foldl historyStep acc).commit_count
        ∧ (((commits.foldl historyStep acc).authors).map Prod.fst).Nodup by
    exact h _ (by simp [sumVals]) (by simp)
  induction commits with
  | nil => intro acc h1 h2; exact ⟨h1, h2⟩
  | cons c cs ih =>
    intro acc h1 h2
    rw [List.foldl_cons]
    refine ih _ ?_ (bumpAuthor_nodup _ _ h2)
    simp [historyStep, bumpAuthor_sum, h1]

/-- C8: for every record the HistoryMiner produces (in particular every file
whose history walks successfully), the author-commit values sum to the
commit count, with one key per distinct author identity. -/
theorem c8_author_commits_sum (hist : String → Except String (List Commit)) (m : Mapping) :
    ∀ pd ∈ analyze_git_history (some hist) m,
      sumVals (pd.2.author_commits.getD []) = pd.2.commit_count.getD 0
        ∧ ((pd.2.author_commits.getD []).map Prod.fst).Nodup := by
  intro pd hpd
  unfold analyze_git_history at hpd
  rcases List.mem_map.mp hpd with ⟨qd, _hqd, rfl⟩
  dsimp only
  cases hh : hist qd.1 with
  | ok commits =>
    simp only [hh]
    simpa using walkHistory_invariant commits
  | error err => simp [hh, sumVals]

/-- C8: witness at a two-commit history walked for one scanned file. -/
theorem c8_author_commits_sum_witness :
    sumVals (historyRec.author_commits.getD []) = historyRec.commit_count.getD 0
      ∧ ((historyRec.author_commits.getD []).map Prod.fst).Nodup := by
  have k1 : BUG_KEYWORDS.any
      (fun keyword => containsStr keyword (toLowerStr "Fix crash on load")) = true := by decide
  have k2 : BUG_KEYWORDS.any
      (fun keyword => containsStr keyword (toLowerStr "add feature")) = false := by decide
  have hw : analyze_git_history (some witnessHist) [("a.py", scannedRec)]
      = [("a.py", historyRec)] := by
    dsimp only [analyze_git_history, witnessHist, List.map_cons, List.map_nil]
    have hwalk : walkHistory witnessCommits =
        { commit_count := 2, authors := [("a@x", 1), ("b@y", 1)], bug_fix_count := 1
        , lines_added := 3, lines_removed := 1 } := by
      have hne : ("a@x" : String) ≠ "b@y" := by decide
      dsimp only [walkHistory, witnessCommits, List.foldl_cons, List.foldl_nil, historyStep,
        bumpAuthor]
      simp only [k1, k2, if_true, if_false]
      norm_num [hne]
    rw [hwalk]
    norm_num [historyRec, scannedRec, FileRecord.empty]
  exact c8_author_commits_sum witnessHist [("a.py", scannedRec)] ("a.py", historyRec)
    (hw ▸ List.mem_singleton.mpr rfl)

/-! ## C4 -/

theorem normalize_metric_mem (x maxv minv : ℚ) (h : minv ≤ maxv) :
    0 ≤ normalize_metric x maxv minv ∧ normalize_metric x maxv minv ≤ 1 := by
  unfold normalize_metric
  by_cases hc : maxv = minv ∨ maxv = 0
  · simp [hc]
  · have hlt : minv < maxv :=
      lt_of_le_of_ne h (fun he => hc (Or.inl he.symm))
    simp only [hc, if_false]
    constructor
    · refine le_min (by norm_num) ?_
      refine div_nonneg ?_ (by linarith)
      have := le_max_left minv x
      linarith [le_max_left minv x]
    · exact min_le_left _ _

theorem maxOrD_nonneg (fallback : ℚ) (l : List ℚ) (hf : 0 ≤ fallback)
    (hl : ∀ x ∈ l, 0 ≤ x) : 0 ≤ maxOrD fallback l := by
  cases l with
  | nil => exact hf
  | cons a t =>
    have haux : ∀ (u : List ℚ) (acc : ℚ), 0 ≤ acc → 0 ≤ u.foldl max acc := by
      intro u
      induction u with
      | nil => intro acc hacc; exact hacc
      | cons b bs ih => intro acc hacc; exact ih _ (le_trans hacc (le_max_left _ _))
    exact haux t a (hl a (by simp))

theorem bugFixFreqCandidate_nonneg (d : FileRecord) (h : RawNonneg d) :
    0 ≤ bugFixFreqCandidate d := by
  obtain ⟨_, _, _, hb, hcm, _, _, _⟩ := h
  unfold bugFixFreqCandidate
  refine div_nonneg hb ?_
  cases hc : d.commit_count with
  | none => simp
  | some c =>
    have hc0 : 0 ≤ c := by simpa [hc] using hcm
    by_cases hz : c = 0 <;> simp [hz, hc0, hc]

theorem rawMaxValues_nonneg (fe : List (String × FileRecord))
    (h : ∀ pd ∈ fe, RawNonneg pd.2) :
    0 ≤ (rawMaxValues fe).complexity ∧ 0 ≤ (rawMaxValues fe).total_churn
      ∧ 0 ≤ (rawMaxValues fe).ownership_entropy ∧ 0 ≤ (rawMaxValues fe).bug_fix_freq
      ∧ 0 ≤ (rawMaxValues fe).dependency_score := by
  refine ⟨?_, ?_, by norm_num [rawMaxValues], ?_, ?_⟩
  · refine maxOrD_nonneg _ _ (by norm_num) ?_
    intro x hx
    rcases List.mem_map.mp hx with ⟨pd, hpd, rfl⟩
    exact (h pd hpd).1
  · refine maxOrD_nonneg _ _ (by norm_num) ?_
    intro x hx
    rcases List.mem_map.mp hx with ⟨pd, hpd, rfl⟩
    obtain ⟨_, ha, hr, _⟩ := h pd hpd
    linarith
  · refine maxOrD_nonneg _ _ (by norm_num) ?_
    intro x hx
    rcases List.mem_map.mp hx with ⟨pd, hpd, rfl⟩
    exact bugFixFreqCandidate_nonneg pd.2 (h pd hpd)
  · refine maxOrD_nonneg _ _ (by norm_num) ?_
    intro x hx
    rcases List.mem_map.mp hx with ⟨pd, hpd, rfl⟩
    obtain ⟨_, _, _, _, _, hfi, hfo, _⟩ := h pd hpd
    linarith

theorem riskScoreVal_bounds (mv : MaxValues) (d : FileRecord)
    (h1 : 0 ≤ mv.complexity) (h2 : 0 ≤ mv.total_churn) (h3 : 0 ≤ mv.ownership_entropy)
    (h4 : 0 ≤ mv.bug_fix_freq) (h5 : 0 ≤ mv.dependency_score) :
    0 ≤ riskScoreVal mv d ∧ riskScoreVal mv d ≤ 100 := by
  unfold riskScoreVal
  obtain ⟨a0, a1⟩ := normalize_metric_mem (d.complexity.getD 0) mv.complexity 0 h1
  obtain ⟨b0, b1⟩ := normalize_metric_mem (d.lines_added.getD 0 + d.lines_removed.getD 0)
    mv.total_churn 0 h2
  obtain ⟨c0, c1⟩ := normalize_metric_mem (d.ownership_entropy.getD 0) mv.ownership_entropy 0 h3
  obtain ⟨e0, e1⟩ := normalize_metric_mem
    (d.bug_fix_count.getD 0 / (if d.commit_count.getD 0 = 0 then 1 else d.commit_count.getD 0))
    mv.bug_fix_freq 0 h4
  obtain ⟨f0, f1⟩ := normalize_metric_mem (d.fan_in.getD 0 * 2 + d.fan_out.getD 0 * 1)
    mv.dependency_score 0 h5
  constructor <;> nlinarith

/-- C4: counterexample.  The normalization helper is not confined to [0,1]
for every x at or above the given minimum: with x = 1, max = -1, min = 0 it
returns -1. -/
theorem c4_normalize_counterexample :
    (0 : ℚ) ≤ 1 ∧ normalize_metric 1 (-1) 0 = -1
      ∧ ¬ (0 ≤ normalize_metric 1 (-1) 0) := by
  have h : normalize_metric 1 (-1) 0 = -1 := by
    unfold normalize_metric
    norm_num
  exact ⟨by norm_num, h, by rw [h]; norm_num⟩

/-- C4 (amended): normalize returns 0 whenever max = min; it lies in [0,1]
for every x at or above min provided max is at or above min; and every risk
score the MetricsEngine writes lies in [0,100] whenever the input records
carry nonnegative raw metrics and no pre-existing risk score. -/
theorem c4_bounds_amended :
    (∀ x maxv minv : ℚ, minv ≤ x → minv ≤ maxv →
        0 ≤ normalize_metric x maxv minv ∧ normalize_metric x maxv minv ≤ 1)
      ∧ (∀ x m : ℚ, normalize_metric x m m = 0)
      ∧ (∀ (entries : Mapping) (st : RepoStats),
          (∀ pd ∈ entries, RawNonneg pd.2) →
          (∀ pd ∈ entries, pd.2.risk_score = none) →
          ∀ pd ∈ (compute_advanced_metrics (entries, st)).1,
            ∀ q, pd.2.risk_score = some q → 0 ≤ q ∧ q ≤ 100) := by
  refine ⟨?_, ?_, ?_⟩
  · intro x maxv minv _hx h
    exact normalize_metric_mem x maxv minv h
  · intro x m
    simp [normalize_metric]
  · intro entries st hnn hrs pd hpd q hq
    have hout : (compute_advanced_metrics (entries, st)).1
        = entries.map (updEntry (rawMaxValues (entries.filter condB))) := rfl
    rw [hout] at hpd
    rcases List.mem_map.mp hpd with ⟨qd, hqd, rfl⟩
    by_cases hc : condB qd = true
    · have hfe : ∀ pd ∈ entries.filter condB, RawNonneg pd.2 := by
        intro rd hrd
        exact hnn rd (List.mem_of_mem_filter hrd)
      obtain ⟨m1, m2, m3, m4, m5⟩ := rawMaxValues_nonneg (entries.filter condB) hfe
      have hb := riskScoreVal_bounds (rawMaxValues (entries.filter condB)) qd.2 m1 m2 m3 m4 m5
      have : (updEntry (rawMaxValues (entries.filter condB)) qd).2.risk_score
          = some (riskScoreVal (rawMaxValues (entries.filter condB)) qd.2) := by
        simp [updEntry, hc, scoreRecord]
      rw [this] at hq
      rcases Option.some.injEq .. ▸ hq with rfl
      · exact hb
    · have : (updEntry (rawMaxValues (entries.filter condB)) qd).2.risk_score = none := by
        have := hrs qd hqd
        simp [updEntry, hc, this]
      rw [this] at hq
      cases hq

/-- C4: witness.  Normalizing 5 against maximum 10 with minimum 0 lands in
[0,1], and normalize returns 0 on equal maximum and minimum. -/
theorem c4_bounds_witness :
    (0 ≤ normalize_metric 5 10 0 ∧ normalize_metric 5 10 0 ≤ 1)
      ∧ normalize_metric 3 7 7 = 0 := by
  exact ⟨c4_bounds_amended.1 5 10 0 (by norm_num) (by norm_num),
    c4_bounds_amended.2.1 3 7⟩

/-! ## C7 -/

theorem fmcfContributions_eq (d : FileRecord) (mv : MaxValues) :
    fmcfContributions d mv
      = [ ("Complexity", contribComplexity d mv)
        , ("Churn", contribChurn d mv)
        , ("Entropy", contribEntropy d mv)
        , ("Bugs", contribBugs d mv)
        , ("Dependency", contribDependency d mv) ] := rfl

theorem fmcfTotal_eq (d : FileRecord) (mv : MaxValues) :
    fmcfTotal d mv
      = contribComplexity d mv + contribChurn d mv + contribEntropy d mv
        + contribBugs d mv + contribDependency d mv := by
  unfold fmcfTotal
  rw [fmcfContributions_eq]
  simp
  ring

theorem find_main_eq_factor (d : FileRecord) (mv : MaxValues)
    (ht : ¬ fmcfTotal d mv < 1/100) :
    find_main_contributing_factor d mv
      = MainFactor.factor (maxByValueFirst (fmcfContributions d mv) ("Complexity", 0)).1
          ((maxByValueFirst (fmcfContributions d mv) ("Complexity", 0)).2 * 100
            / fmcfTotal d mv) := by
  unfold find_main_contributing_factor
  dsimp only
  rw [show ((fmcfContributions d mv).map Prod.snd).sum = fmcfTotal d mv from rfl, if_neg ht]

/-- C7: main-factor selection is a pure deterministic function of the record
and maxima; below the 0.01 noise threshold it reports the stable label;
otherwise it reports the winning factor with its exact share of the
contribution sum (which the source renders to one decimal place), and ties
are broken by the fixed order Complexity, Churn, Entropy, Bugs, Dependency:
a factor wins exactly when it strictly beats every earlier factor and is not
strictly beaten by any later one. -/
theorem c7_main_factor_deterministic :
    (∀ (d₁ d₂ : FileRecord) (mv₁ mv₂ : MaxValues), d₁ = d₂ → mv₁ = mv₂ →
        find_main_contributing_factor d₁ mv₁ = find_main_contributing_factor d₂ mv₂)
      ∧ (∀ (d : FileRecord) (mv : MaxValues), fmcfTotal d mv < 1/100 →
          find_main_contributing_factor d mv = MainFactor.lowRisk)
      ∧ (∀ (d : FileRecord) (mv : MaxValues), ¬ fmcfTotal d mv < 1/100 →
          contribChurn d mv ≤ contribComplexity d mv →
          contribEntropy d mv ≤ contribComplexity d mv →
          contribBugs d mv ≤ contribComplexity d mv →
          contribDependency d mv ≤ contribComplexity d mv →
          find_main_contributing_factor d mv
            = MainFactor.factor "Complexity" (contribComplexity d mv * 100 / fmcfTotal d mv))
      ∧ (∀ (d : FileRecord) (mv : MaxValues), ¬ fmcfTotal d mv < 1/100 →
          contribComplexity d mv < contribChurn d mv →
          contribEntropy d mv ≤ contribChurn d mv →
          contribBugs d mv ≤ contribChurn d mv →
          contribDependency d mv ≤ contribChurn d mv →
          find_main_contributing_factor d mv
            = MainFactor.factor "Churn" (contribChurn d mv * 100 / fmcfTotal d mv))
      ∧ (∀ (d : FileRecord) (mv : MaxValues), ¬ fmcfTotal d mv < 1/100 →
          contribComplexity d mv < contribEntropy d mv →
          contribChurn d mv < contribEntropy d mv →
          contribBugs d mv ≤ contribEntropy d mv →
          contribDependency d mv ≤ contribEntropy d mv →
          find_main_contributing_factor d mv
            = MainFactor.factor "Entropy" (contribEntropy d mv * 100 / fmcfTotal d mv))
      ∧ (∀ (d : FileRecord) (mv : MaxValues), ¬ fmcfTotal d mv < 1/100 →
          contribComplexity d mv < contribBugs d mv →
          contribChurn d mv < contribBugs d mv →
          contribEntropy d mv < contribBugs d mv →
          contribDependency d mv ≤ contribBugs d mv →
          find_main_contributing_factor d mv
            = MainFactor.factor "Bugs" (contribBugs d mv * 100 / fmcfTotal d mv))
      ∧ (∀ (d : FileRecord) (mv : MaxValues), ¬ fmcfTotal d mv < 1/100 →
          contribComplexity d mv < contribDependency d mv →
          contribChurn d mv < contribDependency d mv →
          contribEntropy d mv < contribDependency d mv →
          contribBugs d mv < contribDependency d mv →
          find_main_contributing_factor d mv
            = MainFactor.factor "Dependency"
                (contribDependency d mv * 100 / fmcfTotal d mv)) := by
  refine ⟨?_, ?_, ?_, ?_, ?_, ?_, ?_⟩
  · intro d₁ d₂ mv₁ mv₂ hd hmv
    rw [hd, hmv]
  · intro d mv ht
    unfold find_main_contributing_factor
    dsimp only
    rw [show ((fmcfContributions d mv).map Prod.snd).sum = fmcfTotal d mv from rfl, if_pos ht]
  all_goals
    intro d mv ht h1 h2 h3 h4
    rw [find_main_eq_factor d mv ht, fmcfContributions_eq]
    simp only [maxByValueFirst, List.foldl_cons, List.foldl_nil]
    split_ifs <;> first | rfl | (exfalso; dsimp only at *; linarith)

/-- C7: witness on the §8 scenario record, whose complexity contribution
(0.3) weakly dominates the rest (0.2, 0, 0, 0): the reported factor is
Complexity at 60 percent of the 0.5 total. -/
theorem c7_main_factor_witness :
    find_main_contributing_factor scenarioRec scenarioMax
      = MainFactor.factor "Complexity" 60 := by
  have e1 : contribComplexity scenarioRec scenarioMax = 30/100 := by
    norm_num [contribComplexity, normalize_metric, scenarioRec, scenarioMax, FileRecord.empty]
  have e2 : contribChurn scenarioRec scenarioMax = 20/100 := by
    norm_num [contribChurn, normalize_metric, scenarioRec, scenarioMax, FileRecord.empty]
  have e3 : contribEntropy scenarioRec scenarioMax = 0 := by
    norm_num [contribEntropy, normalize_metric, scenarioRec, scenarioMax, FileRecord.empty]
  have e4 : contribBugs scenarioRec scenarioMax = 0 := by
    norm_num [contribBugs, normalize_metric, scenarioRec, scenarioMax, FileRecord.empty]
  have e5 : contribDependency scenarioRec scenarioMax = 0 := by
    norm_num [contribDependency, normalize_metric, scenarioRec, scenarioMax, FileRecord.empty]
  have etot : fmcfTotal scenarioRec scenarioMax = 1/2 := by
    rw [fmcfTotal_eq, e1, e2, e3, e4, e5]; norm_num
  have h := c7_main_factor_deterministic.2.2.1 scenarioRec scenarioMax
    (by rw [etot]; norm_num) (by rw [e1, e2]; norm_num) (by rw [e1, e3]; norm_num)
    (by rw [e1, e4]; norm_num) (by rw [e1, e5]; norm_num)
  rw [h, e1, etot]
  norm_num

/-! ## C9 -/

theorem updEntry_fst (mv : MaxValues) (pd : String × FileRecord) :
    (updEntry mv pd).1 = pd.1 := by
  unfold updEntry; split <;> rfl

theorem condB_updEntry (mv : MaxValues) (pd : String × FileRecord) :
    condB (updEntry mv pd) = condB pd := by
  unfold updEntry; split <;> rfl

theorem riskScoreVal_updEntry (mv mv2 : MaxValues) (pd : String × FileRecord) :
    riskScoreVal mv (updEntry mv2 pd).2 = riskScoreVal mv pd.2 := by
  unfold updEntry; split <;> rfl

theorem systemicVal_updEntry (mv mv2 : MaxValues) (pd : String × FileRecord) :
    systemicVal mv (updEntry mv2 pd).1 (updEntry mv2 pd).2 = systemicVal mv pd.1 pd.2 := by
  unfold updEntry; split <;> rfl

theorem rawMaxValues_map_updEntry (mv : MaxValues) (fe : List (String × FileRecord)) :
    rawMaxValues (fe.map (updEntry mv)) = rawMaxValues fe := by
  unfold rawMaxValues
  congr 1 <;> rw [List.map_map] <;> congr 1 <;>
    exact List.map_eq_map_iff.mpr (fun pd _ => by unfold Function.comp updEntry; split <;> rfl)

theorem scoreRecord_idem (mv : MaxValues) (p : String) (d : FileRecord) :
    scoreRecord mv p (scoreRecord mv p d) = scoreRecord mv p d := rfl

theorem updEntry_idem (mv : MaxValues) (pd : String × FileRecord) :
    updEntry mv (updEntry mv pd) = updEntry mv pd := by
  by_cases h : condB pd = true
  · have h1 : updEntry mv pd = (pd.1, scoreRecord mv pd.1 pd.2) := by
      simp [updEntry, h]
    rw [h1]
    have h2 : condB (pd.1, scoreRecord mv pd.1 pd.2) = true := by
      rw [show condB (pd.1, scoreRecord mv pd.1 pd.2) = condB pd from rfl]; exact h
    simp [updEntry, h2, scoreRecord_idem]
  · have h1 : updEntry mv pd = pd := by simp [updEntry, h]
    rw [h1, h1]

/-- C9: the MetricsEngine is idempotent: running it a second time on its own
output (same mapping, no mutation in between) reproduces the first run
exactly, in particular every risk score and systemic risk score. -/
theorem c9_metrics_idempotent (entries : Mapping) (st : RepoStats) :
    compute_advanced_metrics (compute_advanced_metrics (entries, st))
      = compute_advanced_metrics (entries, st) := by
  have hfilter : (entries.map (updEntry (rawMaxValues (entries.filter condB)))).filter condB
      = (entries.filter condB).map (updEntry (rawMaxValues (entries.filter condB))) := by
    rw [List.filter_map]
    congr 1
    exact List.filter_congr (fun pd _ => condB_updEntry _ pd)
  have hmax : rawMaxValues
      ((entries.map (updEntry (rawMaxValues (entries.filter condB)))).filter condB)
      = rawMaxValues (entries.filter condB) := by
    rw [hfilter, rawMaxValues_map_updEntry]
  unfold compute_advanced_metrics
  dsimp only
  rw [hmax, hfilter]
  have hmap2 : List.map (updEntry (rawMaxValues (List.filter condB entries)))
      (List.map (updEntry (rawMaxValues (List.filter condB entries))) entries)
      = List.map (updEntry (rawMaxValues (List.filter condB entries))) entries := by
    rw [List.map_map]
    exact List.map_eq_map_iff.mpr (fun pd _ => updEntry_idem _ pd)
  have hws : List.map (fun pd => riskScoreVal (rawMaxValues (List.filter condB entries)) pd.2)
      (List.map (updEntry (rawMaxValues (List.filter condB entries)))
        (List.filter condB entries))
      = List.map (fun pd => riskScoreVal (rawMaxValues (List.filter condB entries)) pd.2)
        (List.filter condB entries) := by
    rw [List.map_map]
    exact List.map_eq_map_iff.mpr
      (fun pd _ => riskScoreVal_updEntry _ _ pd)
  have hfold : List.foldl
      (fun acc pd => acc ⊔ systemicVal (rawMaxValues (List.filter condB entries)) pd.1 pd.2) 0
      (List.map (updEntry (rawMaxValues (List.filter condB entries)))
        (List.filter condB entries))
      = List.foldl
        (fun acc pd => acc ⊔ systemicVal (rawMaxValues (List.filter condB entries)) pd.1 pd.2) 0
        (List.filter condB entries) := by
    rw [List.foldl_map]
    exact List.foldl_ext _ _ 0 (fun acc pd _ => by rw [systemicVal_updEntry])
  rw [hmap2, hws, hfold]

/-! ## C1 -/

theorem scenario_condB : condB ("a.py", scenarioRec) = true := by
  simp [condB, scenarioRec, FileRecord.empty,
    show strStartsWith "a.py" "_" = false from by decide]

theorem scenario_atc : assign_test_coverage_status "a.py" = 1/2 := by
  simp [assign_test_coverage_status,
    show containsStr "test" (toLowerStr "a.py") = false from by decide,
    show strEndsWith "a.py" "_spec.rb" = false from by decide,
    show strEndsWith "a.py" "_test.py" = false from by decide,
    show (["model", "interface", "util", "core", "api", "database"]).any
      (fun keyword => containsStr keyword (toLowerStr "a.py")) = false from by decide]

theorem scenario_max : rawMaxValues [("a.py", scenarioRec)] = scenarioMax := by
  simp [rawMaxValues, maxOrD, bugFixFreqCandidate, scenarioRec, FileRecord.empty, scenarioMax]
  norm_num

theorem scenario_risk : riskScoreVal scenarioMax scenarioRec = 50 := by
  simp [riskScoreVal, normalize_metric, scenarioRec, FileRecord.empty, scenarioMax]
  norm_num

theorem scenario_compute :
    (compute_advanced_metrics ([("a.py", scenarioRec)], emptyStats)).1
      = [("a.py", scenarioScored)] := by
  have hf : List.filter condB [("a.py", scenarioRec)] = [("a.py", scenarioRec)] := by
    simp [scenario_condB]
  simp only [compute_advanced_metrics, hf, scenario_max, List.map_cons, List.map_nil,
    updEntry, scenario_condB, if_true]
  simp only [scoreRecord, scenario_risk, systemicVal, scenario_atc, scenario_risk]
  simp [scenarioScored, scenarioRec, FileRecord.empty, scenario_risk, scenario_atc]

theorem scenario_contrib :
    analyze_contributor_efficiency [("a.py", scenarioScored)] = [("a@x", scenarioContrib)] := by
  have hskip : ¬("a.py" = "_repo_stats" ∨ scenarioScored.loc.getD 0 = 0
      ∨ scenarioScored.risk_score = none) := by
    simp [scenarioScored, scenarioRec, FileRecord.empty]
  simp only [analyze_contributor_efficiency, List.foldl_cons, List.foldl_nil, processFile,
    hskip, if_false]
  simp only [scenarioScored, scenarioRec, FileRecord.empty]
  norm_num [updateAuthor, ContribAcc.zero, finalizeContrib, scenarioContrib]

/-- C1: counterexample.  On the §8 scenario mapping the MetricsEngine stores
riskScore 50, not 90, and the ContributorAttributionEngine gives a@x a
per-author riskScore of 50, not 90 (the maximum bug-fix frequency is 0 and
equals the minimum, so its normalization yields 0 rather than 1; the record
carries no ownership entropy, so that normalized metric is 0 as well). -/
theorem c1_scenario_counterexample :
    ((compute_advanced_metrics ([("a.py", scenarioRec)], emptyStats)).1.lookup "a.py").map
        FileRecord.risk_score = some (some 50)
      ∧ ((analyze_contributor_efficiency
            (compute_advanced_metrics ([("a.py", scenarioRec)], emptyStats)).1).lookup
          "a@x").map ContribFinal.risk_score = some 50
      ∧ (50 : ℚ) ≠ 90 := by
  rw [scenario_compute, scenario_contrib]
  refine ⟨?_, ?_, by norm_num⟩
  · simp [List.lookup, scenarioScored, scenarioRec, FileRecord.empty]
  · simp [List.lookup, scenarioContrib]

/-- C1 (amended): on the scenario mapping the MetricsEngine produces
riskScore 50.0 (normalized complexity and churn are 1, entropy and bug-fix
frequency and dependency normalize to 0), and the
ContributorAttributionEngine produces for a@x the efficiencyScore
20/7 = 2.857... and per-author riskScore 50.0. -/
theorem c1_scenario_amended :
    ((compute_advanced_metrics ([("a.py", scenarioRec)], emptyStats)).1.lookup "a.py").map
        FileRecord.risk_score = some (some 50)
      ∧ ((analyze_contributor_efficiency
            (compute_advanced_metrics ([("a.py", scenarioRec)], emptyStats)).1).lookup
          "a@x").map ContribFinal.efficiency_score = some (20/7)
      ∧ ((analyze_contributor_efficiency
            (compute_advanced_metrics ([("a.py", scenarioRec)], emptyStats)).1).lookup
          "a@x").map ContribFinal.risk_score = some 50 := by
  rw [scenario_compute, scenario_contrib]
  refine ⟨?_, ?_, ?_⟩
  · simp [List.lookup, scenarioScored, scenarioRec, FileRecord.empty]
  · simp [List.lookup, scenarioContrib]
  · simp [List.lookup, scenarioContrib]
